import Mathlib

/-!
# Weather pipeline: ingestion service and history service

A shallow embedding of the two Go services of the repository

* `weather-system/weather-service/main.go` (handler `getCityWeather`), and
* `weather-system/history-service/main.go` (handlers `createHistory`,
  `getCityHistory`, the consumer loop of `startWeatherConsumer`),

together with the parts of the Go standard library the handlers call
(`unicode/utf8`, `encoding/json`, `strconv`, `time`), and the properties of the
specification settled against it.

Conventions.

* A Go `string` or `[]byte` is a list of bytes (`Bytes`); it need not be valid UTF-8.
* Network peers (the upstream provider, the broker, the database) are inputs of the
  handler functions: what the peer answered is an argument, the new state of the
  peer is part of the result.
* Bit operations of the Go sources are written with `/` and `%` on `Nat`
  (`x >> 6` is `x / 64`, `x & 0x3F` is `x % 64`, and `a << 6 | b` with `b < 64` is
  `a * 64 + b`).
-/

namespace Weather

/-! ## Bytes and UTF-8 (`unicode/utf8`) -/

/-- A Go `string` or `[]byte`: a sequence of bytes, not necessarily valid UTF-8. -/
abbrev Bytes := List Nat

/-- The bytes of an ASCII literal. -/
def ascii (s : String) : Bytes := s.toList.map Char.toNat

/-- The constant `utf8.RuneError`, U+FFFD. -/
def runeError : Nat := 0xFFFD

/-- The table `first` of `unicode/utf8` for a non-ASCII leading byte: the length of
the sequence and the accepted range of its second byte; `none` for the entries
marked invalid (`0x80..0xC1` and `0xF5..0xFF`). -/
def first (s0 : Nat) : Option (Nat × Nat × Nat) :=
  if 0xC2 ≤ s0 ∧ s0 ≤ 0xDF then some (2, 0x80, 0xBF)
  else if s0 = 0xE0 then some (3, 0xA0, 0xBF)
  else if 0xE1 ≤ s0 ∧ s0 ≤ 0xEC then some (3, 0x80, 0xBF)
  else if s0 = 0xED then some (3, 0x80, 0x9F)
  else if 0xEE ≤ s0 ∧ s0 ≤ 0xEF then some (3, 0x80, 0xBF)
  else if s0 = 0xF0 then some (4, 0x90, 0xBF)
  else if 0xF1 ≤ s0 ∧ s0 ≤ 0xF3 then some (4, 0x80, 0xBF)
  else if s0 = 0xF4 then some (4, 0x80, 0x8F)
  else none

/-- Go `utf8.DecodeRuneInString`: the first rune of `s` and its width in bytes;
`(RuneError, 1)` for an invalid or truncated sequence, `(RuneError, 0)` for the
empty string. -/
def decodeRune (s : Bytes) : Nat × Nat :=
  match s with
  | [] => (runeError, 0)
  | s0 :: _ =>
    if s0 < 0x80 then (s0, 1) else
    match first s0 with
    | none => (runeError, 1)
    | some (sz, lo, hi) =>
      if s.length < sz then (runeError, 1) else
      let s1 := s.getD 1 0
      if s1 < lo ∨ hi < s1 then (runeError, 1) else
      if sz ≤ 2 then ((s0 % 32) * 64 + s1 % 64, 2) else
      let s2 := s.getD 2 0
      if s2 < 0x80 ∨ 0xBF < s2 then (runeError, 1) else
      if sz ≤ 3 then ((s0 % 16) * 4096 + (s1 % 64) * 64 + s2 % 64, 3) else
      let s3 := s.getD 3 0
      if s3 < 0x80 ∨ 0xBF < s3 then (runeError, 1) else
      ((s0 % 8) * 262144 + (s1 % 64) * 4096 + (s2 % 64) * 64 + s3 % 64, 4)

/-- Go `utf8.AppendRune`: the UTF-8 encoding of a rune; surrogates and values above
U+10FFFF are encoded as U+FFFD. -/
def encodeRune (r : Nat) : Bytes :=
  if r ≤ 0x7F then [r]
  else if r ≤ 0x7FF then [0xC0 + r / 64, 0x80 + r % 64]
  else if 0x10FFFF < r ∨ (0xD800 ≤ r ∧ r ≤ 0xDFFF) then [0xEF, 0xBF, 0xBD]
  else if r ≤ 0xFFFF then [0xE0 + r / 4096, 0x80 + (r / 64) % 64, 0x80 + r % 64]
  else [0xF0 + r / 262144, 0x80 + (r / 4096) % 64, 0x80 + (r / 64) % 64, 0x80 + r % 64]

/-- Loop of `utf8.ValidString`. -/
def validUTF8Loop : Nat → Bytes → Bool
  | 0, s => s.isEmpty
  | _, [] => true
  | fuel + 1, b :: t =>
    if b < 0x80 then validUTF8Loop fuel t
    else
      let (c, size) := decodeRune (b :: t)
      if c = runeError ∧ size = 1 then false
      else validUTF8Loop fuel ((b :: t).drop size)

/-- Go `utf8.ValidString`: every byte of `s` belongs to a well-formed UTF-8 sequence. -/
def validUTF8 (s : Bytes) : Bool := validUTF8Loop s.length s

/-- Loop of `coerceUTF8`. -/
def coerceUTF8Loop : Nat → Bytes → Bytes
  | 0, _ => []
  | _, [] => []
  | fuel + 1, b :: t =>
    if b < 0x80 then b :: coerceUTF8Loop fuel t
    else
      let (c, size) := decodeRune (b :: t)
      if c = runeError ∧ size = 1 then [0xEF, 0xBF, 0xBD] ++ coerceUTF8Loop fuel t
      else (b :: t).take size ++ coerceUTF8Loop fuel ((b :: t).drop size)

/-- The table `hex = "0123456789abcdef"` of `encoding/json`. -/
def hexDigit (n : Nat) : Nat := if n < 10 then 48 + n else 87 + n

/-- The table `htmlSafeSet` of `encoding/json`: the ASCII bytes written unescaped
when HTML escaping is on, which is the default of `json.Marshal` and of
`json.NewEncoder`. -/
def htmlSafe (b : Nat) : Bool :=
  decide (0x20 ≤ b) && decide (b < 0x80) && b != 34 && b != 38 && b != 60 && b != 62 && b != 92

/-- The escape `appendString` writes for an ASCII byte outside `htmlSafeSet`
(Go 1.22 writes the short forms for backspace and form feed; earlier versions write
`\u0008` and `\u000c`, which decode to the same bytes). -/
def escapeByte (b : Nat) : Bytes :=
  if b = 92 ∨ b = 34 then [92, b]
  else if b = 8 then [92, 98]
  else if b = 12 then [92, 102]
  else if b = 10 then [92, 110]
  else if b = 13 then [92, 114]
  else if b = 9 then [92, 116]
  else [92, 117, 48, 48, hexDigit (b / 16), hexDigit (b % 16)]

/-- The loop of `appendString` in `encoding/json/encode.go`, HTML escaping on: the
text written between the quotes for the Go string `src`. -/
def appendStringLoop : Nat → Bytes → Bytes
  | 0, _ => []
  | _, [] => []
  | fuel + 1, b :: t =>
    if b < 0x80 then
      (if htmlSafe b then [b] else escapeByte b) ++ appendStringLoop fuel t
    else
      let (c, size) := decodeRune ((b :: t).take 4)
      if c = runeError ∧ size = 1 then
        [92, 117, 102, 102, 102, 100] ++ appendStringLoop fuel t
      else if c = 0x2028 ∨ c = 0x2029 then
        [92, 117, 50, 48, 50, hexDigit (c % 16)] ++ appendStringLoop fuel ((b :: t).drop size)
      else (b :: t).take size ++ appendStringLoop fuel ((b :: t).drop size)

/-- Go `appendString` of `encoding/json`: the JSON string literal for `src`. -/
def appendString (src : Bytes) : Bytes :=
  34 :: (appendStringLoop src.length src ++ [34])

/-- Value of a hexadecimal digit (`0-9`, `a-f`, `A-F`), as in `getu4`. -/
def hexVal (c : Nat) : Option Nat :=
  if 48 ≤ c ∧ c ≤ 57 then some (c - 48)
  else if 97 ≤ c ∧ c ≤ 102 then some (c - 87)
  else if 65 ≤ c ∧ c ≤ 70 then some (c - 55)
  else none

/-- Go `getu4`: the value of a leading `\uXXXX` escape, `none` (Go: `-1`) when `s`
does not start with one. -/
def getu4 (s : Bytes) : Option Nat :=
  match s with
  | 92 :: 117 :: a :: b :: c :: d :: _ =>
    match hexVal a, hexVal b, hexVal c, hexVal d with
    | some x, some y, some z, some w => some (((x * 16 + y) * 16 + z) * 16 + w)
    | _, _, _, _ => none
  | _ => none

/-- The scanner states `stateInString`, `stateInStringEsc` and `stateInStringEscU*`
of `encoding/json/scanner.go`, run from just after an opening quote: the raw text
up to the closing quote and the input after it. -/
def scanString : Bytes → Option (Bytes × Bytes)
  | [] => none
  | c :: t =>
    if c = 34 then some ([], t)
    else if c = 92 then
      match t with
      | [] => none
      | e :: t1 =>
        if e = 98 ∨ e = 102 ∨ e = 110 ∨ e = 114 ∨ e = 116 ∨ e = 92 ∨ e = 47 ∨ e = 34 then
          (scanString t1).map fun p => (c :: e :: p.1, p.2)
        else if e = 117 then
          match t1 with
          | h1 :: h2 :: h3 :: h4 :: t2 =>
            if (hexVal h1).isSome ∧ (hexVal h2).isSome ∧ (hexVal h3).isSome ∧ (hexVal h4).isSome then
              (scanString t2).map fun p => (c :: e :: h1 :: h2 :: h3 :: h4 :: p.1, p.2)
            else none
          | _ => none
        else none
    else if c < 32 then none
    else (scanString t).map fun p => (c :: p.1, p.2)

/-- The byte a two-character escape stands for, in `unquoteBytes`. -/
def simpleEscape (e : Nat) : Option Nat :=
  if e = 34 ∨ e = 92 ∨ e = 47 then some e
  else if e = 98 then some 8
  else if e = 102 then some 12
  else if e = 110 then some 10
  else if e = 114 then some 13
  else if e = 116 then some 9
  else none

/-- Go `utf16.DecodeRune`: the code point of a surrogate pair, U+FFFD when the two
halves do not form one. -/
def utf16DecodeRune (r1 r2 : Nat) : Nat :=
  if 0xD800 ≤ r1 ∧ r1 < 0xDC00 ∧ 0xDC00 ≤ r2 ∧ r2 < 0xE000 then
    (r1 - 0xD800) * 1024 + (r2 - 0xDC00) + 0x10000
  else runeError

/-- The loop of `unquoteBytes` in `encoding/json/decode.go`, on the raw text between
the quotes of a string literal. -/
def unquoteLoop : Nat → Bytes → Option Bytes
  | 0, _ => some []
  | _, [] => some []
  | fuel + 1, c :: t =>
    if c = 92 then
      match t with
      | [] => none
      | e :: t1 =>
        if e = 117 then
          match getu4 (c :: t) with
          | none => none
          | some rr =>
            let r6 := (c :: t).drop 6
            if 0xD800 ≤ rr ∧ rr < 0xE000 then
              match getu4 r6 with
              | some rr1 =>
                if utf16DecodeRune rr rr1 ≠ runeError then
                  (unquoteLoop fuel (r6.drop 6)).map (encodeRune (utf16DecodeRune rr rr1) ++ ·)
                else (unquoteLoop fuel r6).map (encodeRune runeError ++ ·)
              | none => (unquoteLoop fuel r6).map (encodeRune runeError ++ ·)
            else (unquoteLoop fuel r6).map (encodeRune rr ++ ·)
        else
          match simpleEscape e with
          | some b => (unquoteLoop fuel t1).map (b :: ·)
          | none => none
    else if c = 34 ∨ c < 32 then none
    else if c < 0x80 then (unquoteLoop fuel t).map (c :: ·)
    else
      let (rr, size) := decodeRune (c :: t)
      (unquoteLoop fuel ((c :: t).drop size)).map (encodeRune rr ++ ·)

/-- Go `unquote`: the Go string a JSON string literal stands for, from its raw text
between the quotes. -/
def unquote (raw : Bytes) : Option Bytes := unquoteLoop raw.length raw

/-! ## JSON values (`encoding/json/scanner.go`) -/

/-- Go `isSpace` of the JSON scanner: space, tab, carriage return, line feed. -/
def isSpace (c : Nat) : Bool := c == 32 || c == 9 || c == 13 || c == 10

/-- Skips leading JSON white space. -/
def skipSpace : Bytes → Bytes
  | [] => []
  | c :: t => if isSpace c then skipSpace t else c :: t

/-- ASCII decimal digit. -/
def isDigit (c : Nat) : Bool := decide (48 ≤ c) && decide (c ≤ 57)

/-- The scanner states of a number literal: `stateBeginValue` (on a sign or digit),
`stateNeg`, `state0`, `state1`, `stateDot`, `stateDot0`, `stateE`, `stateESign`,
`stateE0`. -/
inductive NumState
  | begin | neg | zero | int | dot | dot0 | e | eSign | e0
  deriving DecidableEq, Repr

/-- Result of one scanner step inside a number: go on in a state, the number ended
before this byte, or a syntax error. -/
inductive NumStep
  | next (st : NumState) | done | err
  deriving DecidableEq, Repr

/-- One step of the scanner inside a number literal. -/
def numStep (st : NumState) (c : Nat) : NumStep :=
  match st with
  | .begin =>
    if c = 45 then .next .neg else if c = 48 then .next .zero
    else if isDigit c then .next .int else .err
  | .neg =>
    if c = 48 then .next .zero else if isDigit c then .next .int else .err
  | .int =>
    if isDigit c then .next .int
    else if c = 46 then .next .dot else if c = 101 ∨ c = 69 then .next .e else .done
  | .zero =>
    if c = 46 then .next .dot else if c = 101 ∨ c = 69 then .next .e else .done
  | .dot => if isDigit c then .next .dot0 else .err
  | .dot0 =>
    if isDigit c then .next .dot0 else if c = 101 ∨ c = 69 then .next .e else .done
  | .e =>
    if c = 43 ∨ c = 45 then .next .eSign else if isDigit c then .next .e0 else .err
  | .eSign => if isDigit c then .next .e0 else .err
  | .e0 => if isDigit c then .next .e0 else .done

/-- Runs the number states over the input: the literal and the input after it. At
the end of the input the scanner is fed a space, as `scanner.eof` does. -/
def scanNumberFrom : NumState → Bytes → Option (Bytes × Bytes)
  | st, [] => if numStep st 32 = .done then some ([], []) else none
  | st, c :: t =>
    match numStep st c with
    | .next st1 => (scanNumberFrom st1 t).map fun p => (c :: p.1, p.2)
    | .done => some ([], c :: t)
    | .err => none

/-- A number literal at the head of the input. -/
def scanNumber (s : Bytes) : Option (Bytes × Bytes) := scanNumberFrom .begin s

/-- A parsed JSON value. Numbers and strings keep their raw text (for a string, the
text between the quotes), as the decoder of `encoding/json` hands the raw token to
`strconv`, to `unquote` or to an `UnmarshalJSON` method. -/
inductive JVal
  | null
  | bool (b : Bool)
  | num (lit : Bytes)
  | str (raw : Bytes)
  | arr (xs : List JVal)
  | obj (kvs : List (Bytes × JVal))

/-- The constant `maxNestingDepth` of `encoding/json/scanner.go`. -/
def maxNestingDepth : Nat := 10000

mutual
/-- One JSON value at the head of the input (after optional white space) and the
input after it; `none` is a syntax error. `depth` counts the arrays and objects
that are open. -/
def parseValue : Nat → Nat → Bytes → Option (JVal × Bytes)
  | 0, _, _ => none
  | fuel + 1, depth, s =>
    match skipSpace s with
    | [] => none
    | c :: t =>
      if c = 123 then
        if maxNestingDepth ≤ depth then none
        else
          match skipSpace t with
          | [] => none
          | d :: t1 =>
            if d = 125 then some (JVal.obj [], t1)
            else (parseMembers fuel (depth + 1) (d :: t1)).map fun p => (JVal.obj p.1, p.2)
      else if c = 91 then
        if maxNestingDepth ≤ depth then none
        else
          match skipSpace t with
          | [] => none
          | d :: t1 =>
            if d = 93 then some (JVal.arr [], t1)
            else (parseElements fuel (depth + 1) (d :: t1)).map fun p => (JVal.arr p.1, p.2)
      else if c = 34 then (scanString t).map fun p => (JVal.str p.1, p.2)
      else if c = 45 ∨ isDigit c then (scanNumber (c :: t)).map fun p => (JVal.num p.1, p.2)
      else if [116, 114, 117, 101].isPrefixOf (c :: t) then some (JVal.bool true, (c :: t).drop 4)
      else if [102, 97, 108, 115, 101].isPrefixOf (c :: t) then
        some (JVal.bool false, (c :: t).drop 5)
      else if [110, 117, 108, 108].isPrefixOf (c :: t) then some (JVal.null, (c :: t).drop 4)
      else none
/-- The elements of an array after its opening bracket, up to and including the
closing bracket. -/
def parseElements : Nat → Nat → Bytes → Option (List JVal × Bytes)
  | 0, _, _ => none
  | fuel + 1, depth, s =>
    match parseValue fuel depth s with
    | none => none
    | some (v, r) =>
      match skipSpace r with
      | [] => none
      | c :: r1 =>
        if c = 44 then (parseElements fuel depth r1).map fun p => (v :: p.1, p.2)
        else if c = 93 then some ([v], r1)
        else none
/-- The members of an object after its opening brace, up to and including the
closing brace. Keys are kept raw. -/
def parseMembers : Nat → Nat → Bytes → Option (List (Bytes × JVal) × Bytes)
  | 0, _, _ => none
  | fuel + 1, depth, s =>
    match skipSpace s with
    | [] => none
    | q :: t =>
      if q = 34 then
        match scanString t with
        | none => none
        | some (k, r) =>
          match skipSpace r with
          | [] => none
          | c :: r1 =>
            if c = 58 then
              match parseValue fuel depth r1 with
              | none => none
              | some (v, r2) =>
                match skipSpace r2 with
                | [] => none
                | e :: r3 =>
                  if e = 44 then (parseMembers fuel depth r3).map fun p => ((k, v) :: p.1, p.2)
                  else if e = 125 then some ([(k, v)], r3)
                  else none
            else none
      else none
end

/-- Fuel that lets the parser read any input of the given length: every call that
spends fuel is separated from the next by at least one byte of input or one level
of nesting. -/
def parseFuel (s : Bytes) : Nat := 2 * s.length + 2

/-- The syntax side of `json.Unmarshal`: `checkValid` accepts the input when it is
exactly one JSON value surrounded by optional white space. -/
def parseDocument (s : Bytes) : Option JVal :=
  match parseValue (parseFuel s) 0 s with
  | some (v, r) => if (skipSpace r).isEmpty then some v else none
  | none => none

/-- The syntax side of `(*json.Decoder).Decode` on a fresh decoder: the first JSON
value of the stream; what follows it is left unread. -/
def parseFirst (s : Bytes) : Option JVal :=
  (parseValue (parseFuel s) 0 s).map Prod.fst

/-! ## Numbers (`strconv`) -/

/-- Value of a run of ASCII decimal digits. -/
def digitsVal (ds : Bytes) : Nat := ds.foldl (fun n c => 10 * n + (c - 48)) 0

/-- Loop of `formatNat`. -/
def formatNatLoop : Nat → Nat → Bytes → Bytes
  | 0, _, acc => acc
  | fuel + 1, n, acc =>
    if n < 10 then (48 + n) :: acc
    else formatNatLoop fuel (n / 10) ((48 + n % 10) :: acc)

/-- Decimal digits of a natural number (`strconv.AppendUint`, base 10). -/
def formatNat (n : Nat) : Bytes := formatNatLoop (n + 1) n []

/-- Go `strconv.AppendInt(b, i, 10)`, used by the JSON encoder for `int64`. -/
def formatInt (i : Int) : Bytes :=
  if i < 0 then 45 :: formatNat i.natAbs else formatNat i.natAbs

/-- Go `strconv.ParseInt(lit, 10, 64)` on a JSON number literal, as called by the
JSON decoder for an `int64` field: `none` when the literal has a fraction or an
exponent, or is outside the range of `int64`. -/
def parseInt64 (lit : Bytes) : Option Int :=
  let neg := lit.head? = some 45
  let ds := if neg then lit.tail else lit
  if ds.isEmpty ∨ ¬ ds.all isDigit then none
  else
    let n := digitsVal ds
    if neg then (if n ≤ 2 ^ 63 then some (- (n : Int)) else none)
    else (if n < 2 ^ 63 then some (n : Int) else none)

/-- A Go `float64`, as its IEEE-754 binary64 bit pattern (sign, 11 exponent bits,
52 fraction bits). -/
abbrev Float64 := Nat

/-- Neither infinite nor NaN: the exponent field is not all ones. -/
def Float64.isFinite (x : Float64) : Bool := (x / 2 ^ 52) % 2048 != 2047

/-- Integer part of the base-`b` logarithm, by repeated division. -/
def floorLog (b : Nat) : Nat → Nat → Nat
  | 0, _ => 0
  | fuel + 1, n => if n < b ∨ b < 2 then 0 else floorLog b fuel (n / b) + 1

/-- The largest `k` with `b ^ k * den ≤ num`, as an integer (negative when
`num < den`); `num` and `den` are positive. -/
def floorLogRat (b num den : Nat) : Int :=
  if den ≤ num then
    let k := floorLog b num num - floorLog b den den
    if b ^ k * den ≤ num then (k : Int) else (k : Int) - 1
  else
    let k := floorLog b den den - floorLog b num num
    if den ≤ b ^ k * num then - (k : Int) else - (k : Int) - 1

/-- Quotient rounded to the nearest integer, ties to even. -/
def divRoundEven (a b : Nat) : Nat :=
  let q := a / b
  let r := a % b
  if b < 2 * r ∨ (2 * r = b ∧ q % 2 = 1) then q + 1 else q

/-- The binary64 nearest to `± num / den` (ties to even), as bits; `none` when the
value overflows to infinity. This is the result `strconv.ParseFloat` specifies. -/
def roundToFloat64 (neg : Bool) (num den : Nat) : Option Float64 :=
  let sign := if neg then 2 ^ 63 else 0
  if num = 0 ∨ den = 0 then some sign
  else
    let e2 : Int := max (floorLogRat 2 num den - 52) (-1074)
    let m0 := if 0 ≤ e2 then divRoundEven num (den * 2 ^ e2.toNat)
              else divRoundEven (num * 2 ^ (-e2).toNat) den
    let m := if 2 ^ 53 ≤ m0 then m0 / 2 else m0
    let e := if 2 ^ 53 ≤ m0 then e2 + 1 else e2
    if m < 2 ^ 52 then some (sign + m)
    else
      let biased := (e + 1075).toNat
      if 2047 ≤ biased then none
      else some (sign + biased * 2 ^ 52 + (m - 2 ^ 52))

/-- Go `strconv.ParseFloat(lit, 64)` on a JSON number literal, as called by the JSON
decoder for a `float64` field: the nearest binary64; `none` on overflow (Go reports
a range error, which the decoder turns into an `UnmarshalTypeError`). -/
def parseFloat (lit : Bytes) : Option Float64 :=
  let neg := lit.head? = some 45
  let body := if neg then lit.tail else lit
  let intPart := body.takeWhile isDigit
  let r1 := body.dropWhile isDigit
  let frac := match r1 with
    | c :: t => if c = 46 then t.takeWhile isDigit else []
    | [] => []
  let r2 := match r1 with
    | c :: t => if c = 46 then t.dropWhile isDigit else r1
    | [] => []
  let ex : Int := match r2 with
    | _ :: 45 :: t => - (digitsVal t : Int)
    | _ :: 43 :: t => (digitsVal t : Int)
    | _ :: t => (digitsVal t : Int)
    | [] => 0
  let mant := digitsVal (intPart ++ frac)
  let e10 : Int := ex - frac.length
  if 0 ≤ e10 then roundToFloat64 neg (mant * 10 ^ e10.toNat) 1
  else roundToFloat64 neg mant (10 ^ (-e10).toNat)

/-- The exact value of a finite, non-zero binary64 as a fraction `num / den`. -/
def Float64.toRat (x : Float64) : Nat × Nat :=
  let biased : Nat := (x / 2 ^ 52) % 2048
  let fr : Nat := x % 2 ^ 52
  let m : Nat := if biased = 0 then fr else 2 ^ 52 + fr
  let e2 : Int := if biased = 0 then -1074 else (biased : Int) - 1075
  if 0 ≤ e2 then (m * 2 ^ e2.toNat, 1) else (m, 2 ^ (-e2).toNat)

/-- The decimals with `n` significant digits next to `num / den`, the nearer one
first: pairs `(d, p)` standing for `d * 10 ^ p`. -/
def nearDecimals (num den n : Nat) : List (Nat × Int) :=
  let k := floorLogRat 10 num den
  let p : Int := k - (n : Int) + 1
  let lo := if 0 ≤ p then num / (den * 10 ^ p.toNat) else (num * 10 ^ (-p).toNat) / den
  let r := if 0 ≤ p then divRoundEven num (den * 10 ^ p.toNat)
           else divRoundEven (num * 10 ^ (-p).toNat) den
  if r = lo then [(lo, p), (lo + 1, p)] else [(lo + 1, p), (lo, p)]

/-- The binary64 nearest to `d * 10 ^ p`. -/
def decimalToFloat64 (neg : Bool) (d : Nat) (p : Int) : Option Float64 :=
  if 0 ≤ p then roundToFloat64 neg (d * 10 ^ p.toNat) 1
  else roundToFloat64 neg d (10 ^ (-p).toNat)

/-- The shortest decimal that reads back as `x` (`strconv.FormatFloat` with
precision `-1`): digits `d` without trailing zeros and exponent `p`, for a finite,
non-zero and non-negative `x`. -/
def shortestDecimal (x : Float64) : Nat → Nat → Option (Nat × Int)
  | 0, _ => none
  | fuel + 1, n =>
    let q := Float64.toRat x
    match (nearDecimals q.1 q.2 n).find? fun c => decimalToFloat64 false c.1 c.2 == some x with
    | some c => some c
    | none => shortestDecimal x fuel (n + 1)

/-- Removes the trailing decimal zeros of `d`, raising the exponent. -/
def stripZeros : Nat → Nat → Int → Nat × Int
  | 0, d, p => (d, p)
  | fuel + 1, d, p => if d ≠ 0 ∧ d % 10 = 0 then stripZeros fuel (d / 10) (p + 1) else (d, p)

/-- The text of `d * 10 ^ p` in the format `'f'` of `strconv`: no exponent. -/
def formatFixed (d : Nat) (p : Int) : Bytes :=
  let ds := formatNat d
  if 0 ≤ p then ds ++ List.replicate p.toNat 48
  else
    let f := (-p).toNat
    if f < ds.length then ds.take (ds.length - f) ++ 46 :: ds.drop (ds.length - f)
    else 48 :: 46 :: (List.replicate (f - ds.length) 48 ++ ds)

/-- The text of `d * 10 ^ p` in the format `'e'` of `strconv`, after the JSON
encoder has shortened a two-digit exponent with a leading zero (`e-09` to `e-9`). -/
def formatExp (d : Nat) (p : Int) : Bytes :=
  let ds := formatNat d
  let ex : Int := p + (ds.length : Int) - 1
  let mant := match ds with
    | [] => []
    | c :: t => if t.isEmpty then [c] else c :: 46 :: t
  mant ++ 101 :: (if ex < 0 then 45 else 43) :: formatNat ex.natAbs

/-- The `floatEncoder` of `encoding/json` for a `float64`: `none` for NaN and the
infinities (`UnsupportedValueError`); otherwise the shortest decimal that reads back
as the same value, in the format `'e'` when the magnitude is below `1e-6` or at
least `1e21`, and in the format `'f'` otherwise. -/
def formatFloat (x : Float64) : Option Bytes :=
  if ¬ Float64.isFinite x then none
  else
    let neg := 2 ^ 63 ≤ x
    let a := x % 2 ^ 63
    let sign : Bytes := if neg then [45] else []
    if a = 0 then some (sign ++ [48])
    else
      match shortestDecimal a 17 1 with
      | none => none
      | some c =>
        let s := stripZeros 17 c.1 c.2
        let e10 : Int := s.2 + ((formatNat s.1).length : Int) - 1
        if e10 < -6 ∨ 21 ≤ e10 then some (sign ++ formatExp s.1 s.2)
        else some (sign ++ formatFixed s.1 s.2)

/-! ## Time (`time`) -/

/-- A Go `time.Time`, as the calendar date and clock reading it shows in its own
location together with the offset of that location from UTC, in minutes east. -/
structure Time where
  year : Nat
  month : Nat
  day : Nat
  hour : Nat
  minute : Nat
  second : Nat
  nano : Nat
  offset : Int
  deriving DecidableEq, Repr

/-- The zero value `time.Time{}`: January 1, year 1, 00:00:00 UTC. -/
def Time.zero : Time := ⟨1, 1, 1, 0, 0, 0, 0, 0⟩

/-- Go `isLeap`. -/
def isLeap (year : Nat) : Bool := year % 4 == 0 && (year % 100 != 0 || year % 400 == 0)

/-- Go `daysIn`: the number of days of a month. -/
def daysIn (month year : Nat) : Nat :=
  if month = 2 then (if isLeap year then 29 else 28)
  else if month = 4 ∨ month = 6 ∨ month = 9 ∨ month = 11 then 30
  else 31

/-- Days from March 1 of the year 400 years before year 0 to the given date
(proleptic Gregorian calendar). -/
def daysFromCivil (year month day : Nat) : Nat :=
  let y := if month ≤ 2 then year + 399 else year + 400
  let mp := if month ≤ 2 then month + 9 else month - 3
  365 * y + y / 4 - y / 100 + y / 400 + (153 * mp + 2) / 5 + (day - 1)

/-- The instant a `Time` denotes, in nanoseconds from a fixed origin; the order of
instants is the order of `Time.Before` and `Time.After`, and of a timestamp column. -/
def Time.instant (t : Time) : Int :=
  ((((daysFromCivil t.year t.month t.day : Int) * 24 + t.hour) * 60 + t.minute - t.offset) * 60
      + t.second) * 1000000000 + t.nano

/-- A number in exactly `w` decimal digits, zero padded. -/
def pad (w n : Nat) : Bytes := (List.replicate (w - (formatNat n).length) 48) ++ formatNat n

/-- The fractional second of the layout `.999999999`: nothing for zero, otherwise
a point and the nine digits without their trailing zeros. -/
def formatFraction (nano : Nat) : Bytes :=
  if nano = 0 then []
  else 46 :: ((pad 9 nano).reverse.dropWhile (· == 48)).reverse

/-- The zone of the layout `Z07:00`. -/
def formatZone (offset : Int) : Bytes :=
  if offset = 0 then [90]
  else (if offset < 0 then 45 else 43) ::
    (pad 2 (offset.natAbs / 60) ++ 58 :: pad 2 (offset.natAbs % 60))

/-- The text `Time.MarshalJSON` puts between the quotes: the layout `RFC3339Nano`;
`none` (an error) for a year outside `[0, 9999]` or a zone offset of a day or more. -/
def formatRFC3339 (t : Time) : Option Bytes :=
  if 9999 < t.year ∨ 24 * 60 ≤ t.offset.natAbs then none
  else some (pad 4 t.year ++ 45 :: pad 2 t.month ++ 45 :: pad 2 t.day ++ 84 ::
    pad 2 t.hour ++ 58 :: pad 2 t.minute ++ 58 :: pad 2 t.second ++
    formatFraction t.nano ++ formatZone t.offset)

/-- The helper `parseUint` of `parseRFC3339`: a run of digits with a value in
`[lo, hi]`. -/
def parseUint (s : Bytes) (lo hi : Nat) : Option Nat :=
  if s.all isDigit ∧ lo ≤ digitsVal s ∧ digitsVal s ≤ hi then some (digitsVal s) else none

/-- Go `parseNanoseconds` on the digits after the point: digits beyond the ninth are
dropped. -/
def parseNanoseconds (ds : Bytes) : Nat :=
  digitsVal (ds.take 9) * 10 ^ (9 - (ds.take 9).length)

/-- The zone at the end of an RFC 3339 timestamp: `Z`, or a sign, two digits of
hours up to 23, a colon, and two digits of minutes up to 59. -/
def parseZone (s : Bytes) : Option Int :=
  if s = [90] then some 0
  else if s.length ≠ 6 then none
  else
    match parseUint ((s.drop 1).take 2) 0 23, parseUint ((s.drop 4).take 2) 0 59 with
    | some hr, some mm =>
      if (s.getD 0 0 = 45 ∨ s.getD 0 0 = 43) ∧ s.getD 3 0 = 58 then
        some (if s.getD 0 0 = 45 then - ((hr * 60 + mm : Nat) : Int) else ((hr * 60 + mm : Nat) : Int))
      else none
    | _, _ => none

/-- Go `parseRFC3339` of package `time`, the strict parser behind
`Time.UnmarshalJSON`: `YYYY-MM-DDTHH:MM:SS`, an optional fraction, and a zone.
(Go versions differ on a few lenient forms outside RFC 3339, such as a one-digit
hour; they are rejected here, as `parseStrictRFC3339` documents.) -/
def parseRFC3339 (s : Bytes) : Option Time :=
  if s.length < 19 then none
  else
    match parseUint (s.take 4) 0 9999, parseUint ((s.drop 5).take 2) 1 12 with
    | some year, some month =>
      match parseUint ((s.drop 8).take 2) 1 (daysIn month year),
            parseUint ((s.drop 11).take 2) 0 23,
            parseUint ((s.drop 14).take 2) 0 59,
            parseUint ((s.drop 17).take 2) 0 59 with
      | some day, some hour, some minute, some second =>
        if s.getD 4 0 = 45 ∧ s.getD 7 0 = 45 ∧ s.getD 10 0 = 84 ∧ s.getD 13 0 = 58
            ∧ s.getD 16 0 = 58 then
          let r := s.drop 19
          let hasFrac : Bool := r.head? = some 46 && ((r.drop 1).head?.map isDigit == some true)
          let ds := if hasFrac then (r.drop 1).takeWhile isDigit else []
          let z := if hasFrac then (r.drop 1).dropWhile isDigit else r
          (parseZone z).map fun off =>
            ⟨year, month, day, hour, minute, second, parseNanoseconds ds, off⟩
        else none
      | _, _, _, _ => none
    | _, _ => none

/-! ## Records and their JSON form -/

/-- The struct `WeatherHistory`, declared alike in both services, with the JSON
names `id`, `city`, `temperature`, `condition` and `created_at`. -/
structure WeatherHistory where
  ID : Int
  City : Bytes
  Temperature : Float64
  Condition : Bytes
  CreatedAt : Time
  deriving DecidableEq, Repr

/-- The zero value of `WeatherHistory` (`var history WeatherHistory`). -/
def WeatherHistory.zero : WeatherHistory := ⟨0, [], 0, [], Time.zero⟩

/-- An element of `OpenWeatherResponse.Weather`. -/
structure WeatherEntry where
  Main : Bytes
  Description : Bytes
  deriving DecidableEq, Repr

/-- The field `Main` of `OpenWeatherResponse`. -/
structure OpenWeatherMain where
  Temp : Float64
  deriving DecidableEq, Repr

/-- The struct `OpenWeatherResponse` of the weather service. -/
structure OpenWeatherResponse where
  Weather : List WeatherEntry
  Main : OpenWeatherMain
  deriving DecidableEq, Repr

/-- A Go slice as `encoding/json` sees it: the nil slice, or a slice with elements
(possibly none). -/
inductive Slice (α : Type)
  | nil
  | elems (xs : List α)
  deriving DecidableEq, Repr

/-- Go `append(s, x)`. -/
def Slice.append {α : Type} (s : Slice α) (x : α) : Slice α :=
  match s with
  | .nil => .elems [x]
  | .elems xs => .elems (xs ++ [x])

/-- The elements of a slice, none for the nil slice. -/
def Slice.toList {α : Type} (s : Slice α) : List α :=
  match s with
  | .nil => []
  | .elems xs => xs

/-- Loop of `foldName`. -/
def foldNameLoop : Nat → Bytes → Bytes
  | 0, _ => []
  | _, [] => []
  | fuel + 1, c :: t =>
    if c < 0x80 then (if 97 ≤ c ∧ c ≤ 122 then c - 32 else c) :: foldNameLoop fuel t
    else
      let (r, n) := decodeRune (c :: t)
      let folded := if r = 0x212A then 75 else if r = 0x17F then 83 else r
      encodeRune folded ++ foldNameLoop fuel ((c :: t).drop n)

/-- The case folding under which `encoding/json` matches an object key with a
struct field (`foldName`): ASCII letters fold to upper case, and the Kelvin sign and
the long s fold to `K` and `S`. Other runes fold among non-ASCII runes only and are
kept, which does not change whether a key matches one of the ASCII field names. -/
def foldName (key : Bytes) : Bytes := foldNameLoop key.length key

/-- The key of a JSON object member selects the struct field of this JSON name. -/
def keyIs (name : String) (key : Bytes) : Bool := foldName key == foldName (ascii name)

/-- Decoding a JSON value into a Go `string`: a string is unquoted, `null` leaves
the field as it is, anything else is an `UnmarshalTypeError`. -/
def decodeString (v : JVal) (old : Bytes) : Option Bytes :=
  match v with
  | .str raw => unquote raw
  | .null => some old
  | _ => none

/-- Decoding a JSON value into a Go `int64`. -/
def decodeInt64 (v : JVal) (old : Int) : Option Int :=
  match v with
  | .num lit => parseInt64 lit
  | .null => some old
  | _ => none

/-- Decoding a JSON value into a Go `float64`. -/
def decodeFloat64 (v : JVal) (old : Float64) : Option Float64 :=
  match v with
  | .num lit => parseFloat lit
  | .null => some old
  | _ => none

/-- Decoding a JSON value into a `time.Time` (`Time.UnmarshalJSON`, which receives
the raw token): the raw text of a string must be an RFC 3339 timestamp, `null`
leaves the field as it is, anything else is an error. -/
def decodeTime (v : JVal) (old : Time) : Option Time :=
  match v with
  | .str raw => parseRFC3339 raw
  | .null => some old
  | _ => none

/-- Decoding the members of a JSON object into a struct, in order: every member
whose key selects a field is decoded into it, the others are skipped. -/
def decodeMembers {α : Type} (setField : α → Bytes → JVal → Option α) :
    List (Bytes × JVal) → α → Option α
  | [], a => some a
  | (k, v) :: rest, a =>
    match unquote k with
    | none => none
    | some key =>
      match setField a key v with
      | none => none
      | some a1 => decodeMembers setField rest a1

/-- One member of a JSON object decoded into a `WeatherHistory`. -/
def WeatherHistory.setField (h : WeatherHistory) (key : Bytes) (v : JVal) :
    Option WeatherHistory :=
  if keyIs "id" key then (decodeInt64 v h.ID).map fun x => { h with ID := x }
  else if keyIs "city" key then (decodeString v h.City).map fun x => { h with City := x }
  else if keyIs "temperature" key then
    (decodeFloat64 v h.Temperature).map fun x => { h with Temperature := x }
  else if keyIs "condition" key then
    (decodeString v h.Condition).map fun x => { h with Condition := x }
  else if keyIs "created_at" key then
    (decodeTime v h.CreatedAt).map fun x => { h with CreatedAt := x }
  else some h

/-- Decoding a JSON value into a `WeatherHistory`: an object is decoded member by
member, `null` changes nothing, any other value is an `UnmarshalTypeError`. No
member is required. -/
def decodeWeatherHistory (v : JVal) (h : WeatherHistory) : Option WeatherHistory :=
  match v with
  | .obj kvs => decodeMembers WeatherHistory.setField kvs h
  | .null => some h
  | _ => none

/-- Go `json.Unmarshal(data, &history)` with `history` the zero `WeatherHistory`:
`none` stands for a returned error. -/
def jsonUnmarshalWeatherHistory (data : Bytes) : Option WeatherHistory :=
  (parseDocument data).bind fun v => decodeWeatherHistory v WeatherHistory.zero

/-- Go `json.NewDecoder(r.Body).Decode(&history)` with `history` the zero
`WeatherHistory`: `none` stands for a returned error. -/
def jsonDecodeWeatherHistory (body : Bytes) : Option WeatherHistory :=
  (parseFirst body).bind fun v => decodeWeatherHistory v WeatherHistory.zero

/-- One member of a JSON object decoded into an element of `Weather`. -/
def WeatherEntry.setField (w : WeatherEntry) (key : Bytes) (v : JVal) : Option WeatherEntry :=
  if keyIs "main" key then (decodeString v w.Main).map fun x => { w with Main := x }
  else if keyIs "description" key then
    (decodeString v w.Description).map fun x => { w with Description := x }
  else some w

/-- Decoding the elements of a JSON array into elements of `Weather`. -/
def decodeWeatherEntries : List JVal → Option (List WeatherEntry)
  | [] => some []
  | v :: rest =>
    let w := match v with
      | .obj kvs => decodeMembers WeatherEntry.setField kvs ⟨[], []⟩
      | .null => some ⟨[], []⟩
      | _ => none
    match w, decodeWeatherEntries rest with
    | some x, some xs => some (x :: xs)
    | _, _ => none

/-- One member of a JSON object decoded into the field `Main`. -/
def OpenWeatherMain.setField (m : OpenWeatherMain) (key : Bytes) (v : JVal) :
    Option OpenWeatherMain :=
  if keyIs "temp" key then (decodeFloat64 v m.Temp).map fun x => { m with Temp := x }
  else some m

/-- One member of a JSON object decoded into an `OpenWeatherResponse`. (When the
key `weather` occurs twice, Go decodes the second array over the elements of the
first; here the second array replaces the first.) -/
def OpenWeatherResponse.setField (o : OpenWeatherResponse) (key : Bytes) (v : JVal) :
    Option OpenWeatherResponse :=
  if keyIs "weather" key then
    match v with
    | .arr xs => (decodeWeatherEntries xs).map fun ws => { o with Weather := ws }
    | .null => some { o with Weather := [] }
    | _ => none
  else if keyIs "main" key then
    match v with
    | .obj kvs =>
      (decodeMembers OpenWeatherMain.setField kvs o.Main).map fun m => { o with Main := m }
    | .null => some o
    | _ => none
  else some o

/-- Go `json.NewDecoder(resp.Body).Decode(&openWeatherResp)` with `openWeatherResp`
the zero value: `none` stands for a returned error. -/
def jsonDecodeOpenWeather (body : Bytes) : Option OpenWeatherResponse :=
  (parseFirst body).bind fun v =>
    match v with
    | .obj kvs => decodeMembers OpenWeatherResponse.setField kvs ⟨[], ⟨0⟩⟩
    | .null => some ⟨[], ⟨0⟩⟩
    | _ => none

/-- Go `json.Marshal` of a `WeatherHistory`: the object with the five members in
declaration order; `none` stands for a returned error (a temperature that is NaN or
infinite, a timestamp `Time.MarshalJSON` rejects). -/
def marshalWeatherHistory (h : WeatherHistory) : Option Bytes :=
  match formatFloat h.Temperature, formatRFC3339 h.CreatedAt with
  | some f, some t =>
    some (ascii "\x7b\"id\":" ++ formatInt h.ID ++ ascii ",\"city\":" ++ appendString h.City
      ++ ascii ",\"temperature\":" ++ f ++ ascii ",\"condition\":" ++ appendString h.Condition
      ++ ascii ",\"created_at\":\"" ++ t ++ ascii "\"\x7d")
  | _, _ => none

/-- The elements of a JSON array of `WeatherHistory`, separated by commas. -/
def marshalElements : List WeatherHistory → Option Bytes
  | [] => some []
  | [h] => marshalWeatherHistory h
  | h :: rest =>
    match marshalWeatherHistory h, marshalElements rest with
    | some x, some xs => some (x ++ 44 :: xs)
    | _, _ => none

/-- Go `json.Marshal` of a `[]WeatherHistory`: the nil slice encodes as `null`, any
other slice as a JSON array. -/
def marshalHistory (s : Slice WeatherHistory) : Option Bytes :=
  match s with
  | .nil => some (ascii "null")
  | .elems xs => (marshalElements xs).map fun b => 91 :: (b ++ [93])

/-- Go `json.Marshal` of `map[string]string{"error": message}`. -/
def marshalError (message : String) : Option Bytes :=
  some (ascii "\x7b\"error\":" ++ appendString (ascii message) ++ ascii "\x7d")

/-! ## HTTP responses -/

/-- What a handler wrote to its `http.ResponseWriter`: the status code and the
body. (The four headers `respondWithJSON` sets are the same on every response and
are left out.) -/
structure Response where
  code : Nat
  body : Bytes
  deriving DecidableEq, Repr

/-- How a handler ended: it wrote a response, or it panicked before writing one. -/
inductive Outcome
  | responded (r : Response)
  | panicked
  deriving DecidableEq, Repr

/-- The function `respondWithJSON` of both services. `payload` is the result of
`json.Marshal` for the Go value passed: `w.WriteHeader(code)` panics on a code
outside `[100, 999]`; `json.NewEncoder(w).Encode` writes the encoding and a newline,
and writes nothing when the value cannot be encoded (its error is not checked). -/
def respondWithJSON (code : Nat) (payload : Option Bytes) : Outcome :=
  if code < 100 ∨ 999 < code then .panicked
  else
    match payload with
    | some b => .responded ⟨code, b ++ [10]⟩
    | none => .responded ⟨code, []⟩

/-- The function `respondWithError` of both services. -/
def respondWithError (code : Nat) (message : String) : Outcome :=
  respondWithJSON code (marshalError message)

/-! ## The weather service (`weather-service/main.go`) -/

/-- The exchange `weather_events` as the publisher sees it: the bodies of the
messages it has accepted, oldest first. -/
structure Broker where
  published : List Bytes
  deriving DecidableEq, Repr

/-- What `http.Get` returned for the upstream request: an error, or a response with
its status code and body. -/
inductive Upstream
  | unreachable
  | answered (status : Nat) (body : Bytes)
  deriving DecidableEq, Repr

/-- The reading `getCityWeather` builds from a decoded upstream response: the
composite literal `WeatherHistory{City, Temperature, Condition, CreatedAt}` with
`Condition: openWeatherResp.Weather[0].Main`. `none` stands for the run-time panic
of the index expression on an empty list (index out of range). -/
def buildReading (city : Bytes) (o : OpenWeatherResponse) (now : Time) :
    Option WeatherHistory :=
  match o.Weather with
  | [] => none
  | w :: _ => some ⟨0, city, o.Main.Temp, w.Main, now⟩

/-- The handler `getCityWeather`. `ch` is the broker before the request, `up` what
`http.Get` returned, `now` the reading of `time.Now()`, `pubOk` whether `ch.Publish`
returned no error, `city` the path variable. The result is the broker after the
request and what the handler did with the response writer. -/
def getCityWeather (ch : Broker) (up : Upstream) (now : Time) (pubOk : Bool) (city : Bytes) :
    Broker × Outcome :=
  match up with
  | .unreachable => (ch, respondWithError 503 "Weather service unavailable")
  | .answered status body =>
    if status = 404 then (ch, respondWithError 404 "City not found")
    else if status ≠ 200 then (ch, respondWithError status "Weather data not available")
    else
      match jsonDecodeOpenWeather body with
      | none => (ch, respondWithError 500 "Error parsing weather data")
      | some openWeatherResp =>
        match buildReading city openWeatherResp now with
        | none => (ch, .panicked)
        | some weatherHistory =>
          let msg := (marshalWeatherHistory weatherHistory).getD []
          let ch1 : Broker := if pubOk then ⟨ch.published ++ [msg]⟩ else ch
          (ch1, respondWithJSON 200 (marshalWeatherHistory weatherHistory))

/-! ## The history service (`history-service/main.go`) -/

/-- Modelled from the spec: the table `weather_history`, whose declaration is not
among the sources. Its rows are readings with all five columns set (spec, data
model); `id` is assigned by the storage on write, unique and increasing; and a row
written without `created_at` gets the current time of the database. `rows` holds
the rows in the order they were written, `lastID` the last identity handed out. -/
structure Store where
  rows : List WeatherHistory
  lastID : Nat
  deriving DecidableEq, Repr

/-- The statement `INSERT INTO weather_history (...) VALUES (...) RETURNING id` when
the database executes it: the new store and the identity of the new row. -/
def Store.insert (db : Store) (city : Bytes) (temperature : Float64) (condition : Bytes)
    (createdAt : Time) : Store × Int :=
  (⟨db.rows ++ [⟨(db.lastID + 1 : Nat), city, temperature, condition, createdAt⟩], db.lastID + 1⟩,
    (db.lastID + 1 : Nat))

/-- Newest first: the order of `ORDER BY created_at DESC`. -/
def newerOrSame (a b : WeatherHistory) : Prop := b.CreatedAt.instant ≤ a.CreatedAt.instant

instance : DecidableRel newerOrSame := fun a b =>
  inferInstanceAs (Decidable (b.CreatedAt.instant ≤ a.CreatedAt.instant))

/-- The query of `getCityHistory` when the database executes it:
`SELECT ... WHERE city = $1 ORDER BY created_at DESC LIMIT 10`. Rows with equal
`created_at` come in the order they were written (SQL leaves their order open). -/
def Store.selectCity (db : Store) (city : Bytes) : List WeatherHistory :=
  ((db.rows.filter fun r => r.City = city).insertionSort newerOrSame).take 10

/-- The handler `createHistory`. `db` is the store before the request, `dbUp`
whether the database executes the statement (otherwise `QueryRow(...).Scan` returns
an error), `dbNow` the current time of the database, `body` the request body. -/
def createHistory (db : Store) (dbUp : Bool) (dbNow : Time) (body : Bytes) : Store × Outcome :=
  match jsonDecodeWeatherHistory body with
  | none => (db, respondWithError 400 "Invalid request payload")
  | some history =>
    if dbUp then
      let r := db.insert history.City history.Temperature history.Condition dbNow
      (r.1, respondWithJSON 201
        (marshalWeatherHistory { history with ID := r.2, CreatedAt := dbNow }))
    else (db, respondWithError 500 "Error creating history record")

/-- The slice `history` at the end of the loop `for rows.Next()` of
`getCityHistory`: it starts as the nil slice (`var history []WeatherHistory`) and
every row of the result is appended. (`rows.Scan` into an `int64`, two `string`s, a
`float64` and a `time.Time` fails only on a NULL or a column of another type, which
the table does not hold; the branch that skips such a row is not taken.) -/
def scanRows (rows : List WeatherHistory) : Slice WeatherHistory :=
  rows.foldl (fun history h => history.append h) Slice.nil

/-- The handler `getCityHistory`. `db` is the store, `dbUp` whether the database
executes the query (otherwise `Query` returns an error), `city` the path variable. -/
def getCityHistory (db : Store) (dbUp : Bool) (city : Bytes) : Outcome :=
  if dbUp then respondWithJSON 200 (marshalHistory (scanRows (db.selectCity city)))
  else respondWithError 500 "Error retrieving history"

/-- A message delivered to the consumer, with what the environment does while it is
handled: `now` is the reading of `time.Now()`, `dbUp` whether the database executes
the insert. -/
structure Delivery where
  body : Bytes
  now : Time
  dbUp : Bool
  deriving DecidableEq, Repr

/-- The line the consumer loop logs for a message. -/
inductive ConsumerLog
  | parseError
  | dbError
  | created (city : Bytes) (id : Int)
  deriving DecidableEq, Repr

/-- The body of the loop `for d := range msgs` of `startWeatherConsumer`, for one
delivery: the store afterwards and the line logged. -/
def consumeOne (db : Store) (d : Delivery) : Store × ConsumerLog :=
  match jsonUnmarshalWeatherHistory d.body with
  | none => (db, .parseError)
  | some history =>
    let history1 := { history with CreatedAt := d.now }
    if d.dbUp then
      let r := db.insert history1.City history1.Temperature history1.Condition history1.CreatedAt
      (r.1, .created history1.City r.2)
    else (db, .dbError)

/-- A clock reading used in the examples: 2024-05-01T12:00:03Z. -/
def exampleNow : Time := ⟨2024, 5, 1, 12, 0, 3, 0, 0⟩

/-- An upstream body with an empty `weather` list. -/
def emptyWeatherBody : Bytes :=
  ascii "\x7b\"weather\":[],\"main\":\x7b\"temp\":21.5\x7d\x7d"

/-- An upstream body for a clear sky at 21.5 degrees. -/
def clearSkyBody : Bytes :=
  ascii "\x7b\"weather\":[\x7b\"id\":800,\"main\":\"Clear\",\"description\":\"clear sky\"\x7d],\"main\":\x7b\"temp\":21.5\x7d\x7d"

/-- A request body that also carries a `created_at`. -/
def datedBody : Bytes :=
  ascii "\x7b\"city\":\"Istanbul\",\"temperature\":21.5,\"condition\":\"Clear\",\"created_at\":\"2020-01-01T00:00:00Z\"\x7d"

/-- A store with one row for Ankara. -/
def ankaraStore : Store :=
  ⟨[⟨1, ascii "Ankara", 0x402E000000000000, ascii "Rain", ⟨2024, 4, 30, 8, 0, 0, 0, 0⟩⟩], 1⟩

instance : IsTotal WeatherHistory newerOrSame :=
  ⟨fun a b => le_total b.CreatedAt.instant a.CreatedAt.instant⟩

instance : IsTrans WeatherHistory newerOrSame :=
  ⟨fun _ _ _ hab hbc => le_trans hbc hab⟩

/-- An event as the weather service publishes it, stamped by the producer. -/
def producerEvent : Bytes :=
  ascii "\x7b\"id\":0,\"city\":\"Ankara\",\"temperature\":15,\"condition\":\"Rain\",\"created_at\":\"2024-05-01T11:59:58.5Z\"\x7d"

/-- The shape of a well-formed multi-byte UTF-8 sequence at the head of a string. -/
inductive RuneAt : Bytes → Nat → Nat → Prop
  | two (b b1 : Nat) (t : Bytes) (h0 : 0xC2 ≤ b ∧ b ≤ 0xDF) (h1 : 0x80 ≤ b1 ∧ b1 ≤ 0xBF) :
      RuneAt (b :: b1 :: t) ((b % 32) * 64 + b1 % 64) 2
  | three (b b1 b2 : Nat) (t : Bytes) (h0 : 0xE0 ≤ b ∧ b ≤ 0xEF)
      (h1 : 0x80 ≤ b1 ∧ b1 ≤ 0xBF) (hlo : b = 0xE0 → 0xA0 ≤ b1) (hhi : b = 0xED → b1 ≤ 0x9F)
      (h2 : 0x80 ≤ b2 ∧ b2 ≤ 0xBF) :
      RuneAt (b :: b1 :: b2 :: t) ((b % 16) * 4096 + (b1 % 64) * 64 + b2 % 64) 3
  | four (b b1 b2 b3 : Nat) (t : Bytes) (h0 : 0xF0 ≤ b ∧ b ≤ 0xF4)
      (h1 : 0x80 ≤ b1 ∧ b1 ≤ 0xBF) (hlo : b = 0xF0 → 0x90 ≤ b1) (hhi : b = 0xF4 → b1 ≤ 0x8F)
      (h2 : 0x80 ≤ b2 ∧ b2 ≤ 0xBF) (h3 : 0x80 ≤ b3 ∧ b3 ≤ 0xBF) :
      RuneAt (b :: b1 :: b2 :: b3 :: t)
        ((b % 8) * 262144 + (b1 % 64) * 4096 + (b2 % 64) * 64 + b3 % 64) 4

theorem first_some {b sz lo hi : Nat} (h : first b = some (sz, lo, hi)) :
    (sz = 2 ∧ 0xC2 ≤ b ∧ b ≤ 0xDF ∧ lo = 0x80 ∧ hi = 0xBF)
    ∨ (sz = 3 ∧ 0xE0 ≤ b ∧ b ≤ 0xEF ∧ 0x80 ≤ lo ∧ hi ≤ 0xBF
        ∧ (b = 0xE0 → lo = 0xA0) ∧ (b = 0xED → hi = 0x9F))
    ∨ (sz = 4 ∧ 0xF0 ≤ b ∧ b ≤ 0xF4 ∧ 0x80 ≤ lo ∧ hi ≤ 0xBF
        ∧ (b = 0xF0 → lo = 0x90) ∧ (b = 0xF4 → hi = 0x8F)) := by
  unfold first at h
  split_ifs at h <;> simp only [Option.some.injEq, Prod.mk.injEq, reduceCtorEq] at h <;>
    (obtain ⟨rfl, rfl, rfl⟩ := h; omega)

theorem first_of_two {b : Nat} (h : 0xC2 ≤ b ∧ b ≤ 0xDF) : first b = some (2, 0x80, 0xBF) := by
  unfold first; simp [h]

theorem first_of_three {b : Nat} (h : 0xE0 ≤ b ∧ b ≤ 0xEF) :
    ∃ lo hi, first b = some (3, lo, hi) ∧ 0x80 ≤ lo ∧ hi ≤ 0xBF
      ∧ (b ≠ 0xE0 → lo = 0x80) ∧ (b ≠ 0xED → hi = 0xBF)
      ∧ (b = 0xE0 → lo = 0xA0) ∧ (b = 0xED → hi = 0x9F) := by
  unfold first
  split_ifs <;> first | omega | (refine ⟨_, _, rfl, ?_⟩; omega)

theorem first_of_four {b : Nat} (h : 0xF0 ≤ b ∧ b ≤ 0xF4) :
    ∃ lo hi, first b = some (4, lo, hi) ∧ 0x80 ≤ lo ∧ hi ≤ 0xBF
      ∧ (b ≠ 0xF0 → lo = 0x80) ∧ (b ≠ 0xF4 → hi = 0xBF)
      ∧ (b = 0xF0 → lo = 0x90) ∧ (b = 0xF4 → hi = 0x8F) := by
  unfold first
  split_ifs <;> first | omega | (refine ⟨_, _, rfl, ?_⟩; omega)

theorem RuneAt.decode {s : Bytes} {c n : Nat} (h : RuneAt s c n) : decodeRune s = (c, n) := by
  cases h with
  | two b b1 t h0 h1 =>
    have hb : ¬ b < 0x80 := by omega
    have h11 : ¬ (b1 < 0x80 ∨ 0xBF < b1) := by omega
    simp [decodeRune, hb, first_of_two h0, h11]
  | three b b1 b2 t h0 h1 hlo hhi h2 =>
    obtain ⟨lo, hi, hf, h3, h4, h5, h6, h7, h8⟩ := first_of_three h0
    have hb : ¬ b < 0x80 := by omega
    have h11 : ¬ (b1 < lo ∨ hi < b1) := by
      by_cases e1 : b = 0xE0 <;> by_cases e2 : b = 0xED <;> omega
    have h22 : ¬ (b2 < 0x80 ∨ 0xBF < b2) := by omega
    simp [decodeRune, hb, hf, h11, h22]
  | four b b1 b2 b3 t h0 h1 hlo hhi h2 h3 =>
    obtain ⟨lo, hi, hf, h4, h5, h6, h7, h8, h9⟩ := first_of_four h0
    have hb : ¬ b < 0x80 := by omega
    have h11 : ¬ (b1 < lo ∨ hi < b1) := by
      by_cases e1 : b = 0xF0 <;> by_cases e2 : b = 0xF4 <;> omega
    have h22 : ¬ (b2 < 0x80 ∨ 0xBF < b2) := by omega
    have h33 : ¬ (b3 < 0x80 ∨ 0xBF < b3) := by omega
    simp [decodeRune, hb, hf, h11, h22, h33]

/-- What `decodeRune` returns on a string that starts with a non-ASCII byte: the
error `(RuneError, 1)`, or the rune and width of a well-formed sequence. -/
theorem decodeRune_spec (b : Nat) (t : Bytes) (hb : 0x80 ≤ b) :
    decodeRune (b :: t) = (runeError, 1)
    ∨ RuneAt (b :: t) (decodeRune (b :: t)).1 (decodeRune (b :: t)).2 := by
  have hb0 : ¬ b < 0x80 := by omega
  cases hf : first b with
  | none => left; simp [decodeRune, hb0, hf]
  | some p =>
    obtain ⟨sz, lo, hi⟩ := p
    rcases first_some hf with ⟨rfl, h1, h2, rfl, rfl⟩ | ⟨rfl, h1, h2, h3, h4, h5, h6⟩
      | ⟨rfl, h1, h2, h3, h4, h5, h6⟩
    · match t with
      | [] => left; simp [decodeRune, hb0, hf]
      | b1 :: t1 =>
        by_cases hr : b1 < 0x80 ∨ 0xBF < b1
        · left; simp [decodeRune, hb0, hf, hr]
        · right
          have := RuneAt.two b b1 t1 ⟨h1, h2⟩ (by omega)
          rw [this.decode]; exact this
    · match t with
      | [] => left; simp [decodeRune, hb0, hf]
      | [b1] => left; simp [decodeRune, hb0, hf]
      | b1 :: b2 :: t2 =>
        by_cases hr : b1 < lo ∨ hi < b1
        · left; simp [decodeRune, hb0, hf, hr]
        · by_cases hr2 : b2 < 0x80 ∨ 0xBF < b2
          · left; simp [decodeRune, hb0, hf, hr, hr2]
          · right
            have := RuneAt.three b b1 b2 t2 ⟨h1, h2⟩ (by omega) (by omega) (by omega) (by omega)
            rw [this.decode]; exact this
    · match t with
      | [] => left; simp [decodeRune, hb0, hf]
      | [b1] => left; simp [decodeRune, hb0, hf]
      | [b1, b2] => left; simp [decodeRune, hb0, hf]
      | b1 :: b2 :: b3 :: t3 =>
        by_cases hr : b1 < lo ∨ hi < b1
        · left; simp [decodeRune, hb0, hf, hr]
        · by_cases hr2 : b2 < 0x80 ∨ 0xBF < b2
          · left; simp [decodeRune, hb0, hf, hr, hr2]
          · by_cases hr3 : b3 < 0x80 ∨ 0xBF < b3
            · left; simp [decodeRune, hb0, hf, hr, hr2, hr3]
            · right
              have := RuneAt.four b b1 b2 b3 t3 ⟨h1, h2⟩ (by omega) (by omega) (by omega)
                (by omega) (by omega)
              rw [this.decode]; exact this

theorem decodeRune_take_four (s : Bytes) : decodeRune (s.take 4) = decodeRune s := by
  match s with
  | [] => rfl
  | [_] => rfl
  | [_, _] => rfl
  | [_, _, _] => rfl
  | a :: b :: c :: d :: t =>
    simp only [List.take_succ_cons, List.take_zero, decodeRune, List.length_cons,
      List.getD_cons_succ, List.getD_cons_zero, List.length_nil]
    by_cases ha : a < 0x80
    · simp [ha]
    · simp only [ha, if_false]
      cases hf : first a with
      | none => rfl
      | some p =>
        obtain ⟨sz, lo, hi⟩ := p
        have hsz : sz = 2 ∨ sz = 3 ∨ sz = 4 := by
          rcases first_some hf with h | h | h <;> omega
        have h1 : ¬ (0 + 1 + 1 + 1 + 1 < sz) := by omega
        have h2 : ¬ (t.length + 1 + 1 + 1 + 1 < sz) := by omega
        simp only [h1, h2, if_false]

theorem RuneAt.width {s : Bytes} {c n : Nat} (h : RuneAt s c n) :
    2 ≤ n ∧ n ≤ 4 ∧ n ≤ s.length := by
  cases h <;> simp

theorem RuneAt.not_error {s : Bytes} {c n : Nat} (h : RuneAt s c n) :
    ¬ (c = runeError ∧ n = 1) := by
  intro h1
  have := h.width
  omega

theorem RuneAt.high {s : Bytes} {c n : Nat} (h : RuneAt s c n) :
    ∀ x ∈ s.take n, 0x80 ≤ x := by
  cases h <;> simp <;> omega

theorem RuneAt.append {s : Bytes} {c n : Nat} (h : RuneAt s c n) (rest : Bytes) :
    RuneAt (s.take n ++ rest) c n := by
  cases h with
  | two b b1 t h0 h1 => exact RuneAt.two b b1 rest h0 h1
  | three b b1 b2 t h0 h1 hlo hhi h2 => exact RuneAt.three b b1 b2 rest h0 h1 hlo hhi h2
  | four b b1 b2 b3 t h0 h1 hlo hhi h2 h3 => exact RuneAt.four b b1 b2 b3 rest h0 h1 hlo hhi h2 h3

theorem RuneAt.encode {s : Bytes} {c n : Nat} (h : RuneAt s c n) : encodeRune c = s.take n := by
  cases h with
  | two b b1 t h0 h1 =>
    have e1 : ¬ ((b % 32) * 64 + b1 % 64 ≤ 0x7F) := by omega
    have e2 : (b % 32) * 64 + b1 % 64 ≤ 0x7FF := by omega
    simp only [encodeRune, e1, e2, if_true, if_false, List.take_succ_cons, List.take_zero]
    congr 1
    · omega
    · congr 1; omega
  | three b b1 b2 t h0 h1 hlo hhi h2 =>
    have e1 : ¬ ((b % 16) * 4096 + (b1 % 64) * 64 + b2 % 64 ≤ 0x7F) := by
      by_cases e : b = 0xE0 <;> omega
    have e2 : ¬ ((b % 16) * 4096 + (b1 % 64) * 64 + b2 % 64 ≤ 0x7FF) := by
      by_cases e : b = 0xE0 <;> omega
    have e3 : ¬ (0x10FFFF < (b % 16) * 4096 + (b1 % 64) * 64 + b2 % 64
        ∨ (0xD800 ≤ (b % 16) * 4096 + (b1 % 64) * 64 + b2 % 64
            ∧ (b % 16) * 4096 + (b1 % 64) * 64 + b2 % 64 ≤ 0xDFFF)) := by
      by_cases e : b = 0xED <;> omega
    have e4 : (b % 16) * 4096 + (b1 % 64) * 64 + b2 % 64 ≤ 0xFFFF := by omega
    simp only [encodeRune, e1, e2, e3, e4, if_true, if_false, List.take_succ_cons,
      List.take_zero]
    congr 1
    · omega
    · congr 1
      · omega
      · congr 1; omega
  | four b b1 b2 b3 t h0 h1 hlo hhi h2 h3 =>
    have e1 : ¬ ((b % 8) * 262144 + (b1 % 64) * 4096 + (b2 % 64) * 64 + b3 % 64 ≤ 0x7F) := by
      by_cases e : b = 0xF0 <;> omega
    have e2 : ¬ ((b % 8) * 262144 + (b1 % 64) * 4096 + (b2 % 64) * 64 + b3 % 64 ≤ 0x7FF) := by
      by_cases e : b = 0xF0 <;> omega
    have e3 : ¬ (0x10FFFF < (b % 8) * 262144 + (b1 % 64) * 4096 + (b2 % 64) * 64 + b3 % 64
        ∨ (0xD800 ≤ (b % 8) * 262144 + (b1 % 64) * 4096 + (b2 % 64) * 64 + b3 % 64
            ∧ (b % 8) * 262144 + (b1 % 64) * 4096 + (b2 % 64) * 64 + b3 % 64 ≤ 0xDFFF)) := by
      by_cases e : b = 0xF0 <;> by_cases e' : b = 0xF4 <;> omega
    have e4 : ¬ ((b % 8) * 262144 + (b1 % 64) * 4096 + (b2 % 64) * 64 + b3 % 64 ≤ 0xFFFF) := by
      by_cases e : b = 0xF0 <;> omega
    simp only [encodeRune, e1, e2, e3, e4, if_true, if_false, List.take_succ_cons,
      List.take_zero]
    congr 1
    · omega
    · congr 1
      · omega
      · congr 1
        · omega
        · congr 1; omega

/-! ## JSON strings: what is written is read back -/

theorem hexVal_hexDigit (x : Nat) (hx : x < 16) : hexVal (hexDigit x) = some x := by
  interval_cases x <;> rfl

theorem unquoteLoop_nil (m : Nat) : unquoteLoop m [] = some [] := by
  cases m <;> simp [unquoteLoop]

theorem unquoteLoop_ascii (m c : Nat) (X : Bytes) (h : 32 ≤ c ∧ c ≠ 34 ∧ c ≠ 92 ∧ c < 0x80) :
    unquoteLoop (m + 1) (c :: X) = (unquoteLoop m X).map (c :: ·) := by
  have h3 : ¬ (c = 34 ∨ c < 32) := by omega
  rw [unquoteLoop.eq_def]; simp [h.2.2.1, h3, h.2.2.2]

theorem unquoteLoop_escape (m e b : Nat) (X : Bytes) (he : e ≠ 117)
    (hb : simpleEscape e = some b) :
    unquoteLoop (m + 1) (92 :: e :: X) = (unquoteLoop m X).map (b :: ·) := by
  rw [unquoteLoop.eq_def]; simp [he, hb]

theorem unquoteLoop_unicode (m h1 h2 h3 h4 x y z w : Nat) (X : Bytes)
    (e1 : hexVal h1 = some x) (e2 : hexVal h2 = some y) (e3 : hexVal h3 = some z)
    (e4 : hexVal h4 = some w)
    (hs : ¬ (0xD800 ≤ ((x * 16 + y) * 16 + z) * 16 + w ∧ ((x * 16 + y) * 16 + z) * 16 + w < 0xE000)) :
    unquoteLoop (m + 1) (92 :: 117 :: h1 :: h2 :: h3 :: h4 :: X)
      = (unquoteLoop m X).map (encodeRune (((x * 16 + y) * 16 + z) * 16 + w) ++ ·) := by
  rw [unquoteLoop.eq_def]; simp [getu4, e1, e2, e3, e4, hs]

theorem unquoteLoop_rune (m : Nat) (s : Bytes) (r n : Nat) (h : RuneAt s r n) :
    unquoteLoop (m + 1) s = (unquoteLoop m (s.drop n)).map (encodeRune r ++ ·) := by
  have hd := h.decode
  have hh := h.high
  match s, h with
  | c :: t, h =>
    have hc : 0x80 ≤ c := hh c (by
      have := h.width
      cases n with
      | zero => omega
      | succ k => simp)
    have h1 : c ≠ 92 := by omega
    have h2 : ¬ (c = 34 ∨ c < 32) := by omega
    have h3 : ¬ c < 0x80 := by omega
    rw [unquoteLoop.eq_def]; simp [h1, h2, h3, hd]

/-- Reading back what `appendString` wrote gives the string coerced to valid UTF-8. -/
theorem unquoteLoop_appendStringLoop (n : Nat) (s : Bytes) (m : Nat)
    (hm : (appendStringLoop n s).length ≤ m) :
    unquoteLoop m (appendStringLoop n s) = some (coerceUTF8Loop n s) := by
  induction n generalizing s m with
  | zero => simp [appendStringLoop, coerceUTF8Loop, unquoteLoop_nil]
  | succ n ih =>
    match s with
    | [] => simp [appendStringLoop, coerceUTF8Loop, unquoteLoop_nil]
    | b :: t =>
      rw [appendStringLoop] at hm ⊢
      rw [coerceUTF8Loop]
      by_cases hb : b < 0x80
      · simp only [hb, if_true] at hm ⊢
        by_cases hs : htmlSafe b = true
        · simp only [hs, if_true] at hm ⊢
          have hp : 32 ≤ b ∧ b ≠ 34 ∧ b ≠ 92 ∧ b < 0x80 := by
            simp only [htmlSafe, Bool.and_eq_true, decide_eq_true_eq, bne_iff_ne, ne_eq] at hs
            omega
          simp only [List.singleton_append, List.length_cons] at hm ⊢
          obtain ⟨m, rfl⟩ : ∃ k, m = k + 1 := ⟨m - 1, by omega⟩
          rw [unquoteLoop_ascii m b _ hp, ih t m (by omega)]
          simp
        · simp only [hs, if_false, Bool.false_eq_true] at hm ⊢
          unfold escapeByte at hm ⊢
          split_ifs at hm ⊢ with h1 h2 h3 h4 h5 h6
          · simp only [List.cons_append, List.nil_append, List.length_cons] at hm ⊢
            obtain ⟨m, rfl⟩ : ∃ k, m = k + 1 := ⟨m - 1, by omega⟩
            have he : simpleEscape b = some b := by
              rcases h1 with rfl | rfl <;> decide
            rw [unquoteLoop_escape m b b _ (by omega) he, ih t m (by omega)]
            simp
          all_goals
            simp only [List.cons_append, List.nil_append, List.length_cons] at hm ⊢
            obtain ⟨m, rfl⟩ : ∃ k, m = k + 1 := ⟨m - 1, by omega⟩
          · rw [unquoteLoop_escape m 98 8 _ (by omega) (by decide), ih t m (by omega), h2]
            simp
          · rw [unquoteLoop_escape m 102 12 _ (by omega) (by decide), ih t m (by omega), h3]
            simp
          · rw [unquoteLoop_escape m 110 10 _ (by omega) (by decide), ih t m (by omega), h4]
            simp
          · rw [unquoteLoop_escape m 114 13 _ (by omega) (by decide), ih t m (by omega), h5]
            simp
          · rw [unquoteLoop_escape m 116 9 _ (by omega) (by decide), ih t m (by omega), h6]
            simp
          · have e1 := hexVal_hexDigit (b / 16) (by omega)
            have e2 := hexVal_hexDigit (b % 16) (by omega)
            have e0 : hexVal 48 = some 0 := by decide
            rw [unquoteLoop_unicode m 48 48 _ _ 0 0 _ _ _ e0 e0 e1 e2 (by omega),
              ih t m (by omega)]
            have hv : ((0 * 16 + 0) * 16 + b / 16) * 16 + b % 16 = b := by omega
            have he : encodeRune b = [b] := by
              have : b ≤ 0x7F := by omega
              simp [encodeRune, this]
            rw [hv, he]
            simp
      · simp only [hb, if_false] at hm ⊢
        rw [decodeRune_take_four] at hm ⊢
        rcases decodeRune_spec b t (by omega) with herr | hrune
        · rw [herr] at hm ⊢
          simp only [and_self, if_true, List.cons_append, List.nil_append,
            List.length_cons] at hm ⊢
          obtain ⟨m, rfl⟩ : ∃ k, m = k + 1 := ⟨m - 1, by omega⟩
          have e0 : hexVal 102 = some 15 := by decide
          have e1 : hexVal 100 = some 13 := by decide
          rw [unquoteLoop_unicode m 102 102 102 100 15 15 15 13 _ e0 e0 e0 e1 (by omega),
            ih t m (by omega)]
          have he : encodeRune (((15 * 16 + 15) * 16 + 15) * 16 + 13) = [0xEF, 0xBF, 0xBD] := by
            decide
          simp [he]
        · cases hd : decodeRune (b :: t) with
          | mk c size =>
          rw [hd] at hrune hm
          simp only [hrune.not_error, if_false] at hm ⊢
          have hw := hrune.width
          by_cases hls : c = 0x2028 ∨ c = 0x2029
          · simp only [hls, if_true, List.cons_append, List.nil_append,
              List.length_cons] at hm ⊢
            obtain ⟨m, rfl⟩ : ∃ k, m = k + 1 := ⟨m - 1, by omega⟩
            have e0 : hexVal 48 = some 0 := by decide
            have e2 : hexVal 50 = some 2 := by decide
            have e1 := hexVal_hexDigit (c % 16) (by omega)
            rw [unquoteLoop_unicode m 50 48 50 _ 2 0 2 _ _ e2 e0 e2 e1 (by omega),
              ih _ m (by omega)]
            have hv : ((2 * 16 + 0) * 16 + 2) * 16 + c % 16 = c := by omega
            rw [hv, hrune.encode]
            simp
          · simp only [hls, if_false, List.length_append] at hm ⊢
            have hlen : ((b :: t).take size).length = size := by
              rw [List.length_take]; omega
            obtain ⟨m, rfl⟩ : ∃ k, m = k + 1 := ⟨m - 1, by omega⟩
            have hr2 := hrune.append (appendStringLoop n ((b :: t).drop size))
            rw [unquoteLoop_rune m _ c size hr2]
            have hdrop : (List.take size (b :: t) ++ appendStringLoop n (List.drop size (b :: t))).drop size
                = appendStringLoop n (List.drop size (b :: t)) := by
              rw [List.drop_append_of_le_length (by omega)]
              simp [List.drop_eq_nil_of_le, hlen]
            rw [hdrop, ih _ m (by omega), hrune.encode]
            simp

theorem coerceUTF8Loop_of_valid (n : Nat) (s : Bytes) (h : validUTF8Loop n s = true) :
    coerceUTF8Loop n s = s := by
  induction n generalizing s with
  | zero =>
    cases s with
    | nil => rfl
    | cons b t => simp [validUTF8Loop] at h
  | succ n ih =>
    match s with
    | [] => rfl
    | b :: t =>
      rw [validUTF8Loop] at h
      rw [coerceUTF8Loop]
      by_cases hb : b < 0x80
      · simp only [hb, if_true] at h ⊢
        rw [ih t h]
      · simp only [hb, if_false] at h ⊢
        cases hd : decodeRune (b :: t) with
        | mk c size =>
        rw [hd] at h
        simp only at h ⊢
        by_cases he : c = runeError ∧ size = 1
        · simp [he] at h
        · simp only [he, if_false] at h ⊢
          rw [ih _ h, List.take_append_drop]

/-- A string that is valid UTF-8 is read back unchanged. -/
theorem unquote_appendString (s : Bytes) (h : validUTF8 s = true) :
    unquote (appendStringLoop s.length s) = some s := by
  unfold unquote
  rw [unquoteLoop_appendStringLoop _ _ _ (le_refl _), coerceUTF8Loop_of_valid _ _ h]

/-! ## Numbers and plain strings inside a document -/

theorem respondWithError_ok (code : Nat) (msg : String) (h1 : 100 ≤ code) (h2 : code ≤ 999) :
    respondWithError code msg
      = .responded ⟨code, ascii "\x7b\"error\":" ++ appendString (ascii msg) ++ ascii "\x7d" ++ [10]⟩ := by
  unfold respondWithError respondWithJSON marshalError
  have : ¬ (code < 100 ∨ 999 < code) := by omega
  simp [this]

/-- C7: when the upstream provider answers 404, `getCityWeather` responds 404 (with
the error body "City not found") and the broker is unchanged, whatever the body of
the upstream response, the clock, the state of the broker connection and the city. -/
theorem getCityWeather_upstream_not_found (ch : Broker) (body : Bytes) (now : Time)
    (pubOk : Bool) (city : Bytes) :
    getCityWeather ch (.answered 404 body) now pubOk city
      = (ch, .responded ⟨404, ascii "\x7b\"error\":\"City not found\"\x7d\n"⟩) := by
  have h : respondWithError 404 "City not found"
      = .responded ⟨404, ascii "\x7b\"error\":\"City not found\"\x7d\n"⟩ := by decide
  simp [getCityWeather, h]

/-- C8: after a successful fetch (upstream status 200, a body that decodes, a
non-empty weather list) the response of `getCityWeather` is status 200 with the
encoding of the fetched reading as body, the same whether `ch.Publish` succeeded or
failed. -/
theorem getCityWeather_response_ignores_publish (ch : Broker) (body : Bytes) (now : Time)
    (city : Bytes) (o : OpenWeatherResponse) (r : WeatherHistory)
    (hdec : jsonDecodeOpenWeather body = some o) (hr : buildReading city o now = some r)
    (pubOk : Bool) :
    (getCityWeather ch (.answered 200 body) now pubOk city).2
      = .responded ⟨200, match marshalWeatherHistory r with
                         | some b => b ++ [10]
                         | none => []⟩
    ∧ (getCityWeather ch (.answered 200 body) now true city).2
      = (getCityWeather ch (.answered 200 body) now false city).2 := by
  simp only [getCityWeather, hdec, hr]
  simp [respondWithJSON]
  cases marshalWeatherHistory r <;> rfl

theorem getCityWeather_response_ignores_publish_witness :
    (getCityWeather ⟨[]⟩ (.answered 200 clearSkyBody) exampleNow false (ascii "Istanbul")).2
      = .responded ⟨200, ascii "\x7b\"id\":0,\"city\":\"Istanbul\",\"temperature\":21.5,\"condition\":\"Clear\",\"created_at\":\"2024-05-01T12:00:03Z\"\x7d\n"⟩
    ∧ (getCityWeather ⟨[]⟩ (.answered 200 clearSkyBody) exampleNow true (ascii "Istanbul")).2
      = (getCityWeather ⟨[]⟩ (.answered 200 clearSkyBody) exampleNow false (ascii "Istanbul")).2 :=
  getCityWeather_response_ignores_publish ⟨[]⟩ clearSkyBody exampleNow (ascii "Istanbul")
    ⟨[⟨ascii "Clear", ascii "clear sky"⟩], ⟨0x4035800000000000⟩⟩
    ⟨0, ascii "Istanbul", 0x4035800000000000, ascii "Clear", exampleNow⟩
    (by decide) (by decide) false

/-- C1 (what the code does): when the upstream answers 200 with a body that decodes
to an empty weather list, `getCityWeather` panics on `Weather[0]`: it writes no
response (in particular no 500) and publishes nothing. -/
theorem getCityWeather_empty_weather_panics (ch : Broker) (body : Bytes) (now : Time)
    (pubOk : Bool) (city : Bytes) (o : OpenWeatherResponse)
    (hdec : jsonDecodeOpenWeather body = some o) (hw : o.Weather = []) :
    getCityWeather ch (.answered 200 body) now pubOk city = (ch, .panicked) := by
  simp [getCityWeather, hdec, buildReading, hw]

theorem getCityWeather_empty_weather_panics_witness :
    getCityWeather ⟨[]⟩ (.answered 200 emptyWeatherBody) exampleNow true (ascii "Istanbul")
      = (⟨[]⟩, .panicked) :=
  getCityWeather_empty_weather_panics ⟨[]⟩ emptyWeatherBody exampleNow true (ascii "Istanbul")
    ⟨[], ⟨0x4035800000000000⟩⟩ (by decide) rfl

/-! ## The history service: reads -/

theorem scanRows_nil : scanRows [] = Slice.nil := rfl

theorem selectCity_eq_nil (db : Store) (city : Bytes) (h : ∀ r ∈ db.rows, r.City ≠ city) :
    db.selectCity city = [] := by
  have : db.rows.filter (fun r => r.City = city) = [] := by
    simp only [List.filter_eq_nil_iff]
    intro r hr
    simpa using h r hr
  simp [Store.selectCity, this]

/-- C4 (what the code does): for a city with no stored row, `getCityHistory` answers
200 with the body `null`: the slice `history` is still the nil slice, which
`encoding/json` encodes as `null`, not as the empty array `[]`. -/
theorem getCityHistory_unknown_city_null (db : Store) (city : Bytes)
    (h : ∀ r ∈ db.rows, r.City ≠ city) :
    getCityHistory db true city = .responded ⟨200, ascii "null\n"⟩ := by
  simp only [getCityHistory, selectCity_eq_nil db city h, scanRows_nil]
  decide

theorem getCityHistory_unknown_city_null_witness :
    getCityHistory ankaraStore true (ascii "Atlantis") = .responded ⟨200, ascii "null\n"⟩ :=
  getCityHistory_unknown_city_null ankaraStore (ascii "Atlantis") (by decide)

/-- C10 (counterexample): a POST body that carries `created_at` 2020-01-01T00:00:00Z,
written at database time 2024-05-01T12:00:03Z, is persisted with the database time;
and an event stamped 11:59:58.5 by the producer, consumed at 12:00:03, is persisted
with the consumer's time. -/
theorem write_paths_replace_created_at :
    (createHistory ⟨[], 0⟩ true exampleNow datedBody).1.rows
        = [⟨1, ascii "Istanbul", 0x4035800000000000, ascii "Clear", exampleNow⟩]
    ∧ jsonDecodeWeatherHistory datedBody
        = some ⟨0, ascii "Istanbul", 0x4035800000000000, ascii "Clear", ⟨2020, 1, 1, 0, 0, 0, 0, 0⟩⟩
    ∧ (consumeOne ⟨[], 0⟩ ⟨producerEvent, exampleNow, true⟩).1.rows
        = [⟨1, ascii "Ankara", 0x402E000000000000, ascii "Rain", exampleNow⟩]
    ∧ jsonUnmarshalWeatherHistory producerEvent
        = some ⟨0, ascii "Ankara", 0x402E000000000000, ascii "Rain",
            ⟨2024, 5, 1, 11, 59, 58, 500000000, 0⟩⟩ := by
  decide

/-- C10 (amended): the insert statement stores the `created_at` it is handed, but
neither write path hands it the supplied one. On the direct path the column is left
out of the statement, so the row gets the current time of the database; on the
queue-driven path the consumer overwrites the event's `created_at` with its own
`time.Now()` before the insert. In both cases the persisted `created_at` is the time
of the write, whatever the body carried. -/
theorem write_paths_created_at (db : Store) (now : Time) (body : Bytes) (h : WeatherHistory) :
    (∀ city temperature condition createdAt,
        (db.insert city temperature condition createdAt).1.rows
          = db.rows ++ [⟨(db.lastID + 1 : Nat), city, temperature, condition, createdAt⟩])
    ∧ (jsonDecodeWeatherHistory body = some h →
        (createHistory db true now body).1.rows
          = db.rows ++ [⟨(db.lastID + 1 : Nat), h.City, h.Temperature, h.Condition, now⟩])
    ∧ (jsonUnmarshalWeatherHistory body = some h →
        (consumeOne db ⟨body, now, true⟩).1.rows
          = db.rows ++ [⟨(db.lastID + 1 : Nat), h.City, h.Temperature, h.Condition, now⟩]) := by
  refine ⟨fun _ _ _ _ => rfl, fun hdec => ?_, fun hdec => ?_⟩
  · simp [createHistory, hdec, Store.insert]
  · simp [consumeOne, hdec, Store.insert]

theorem write_paths_created_at_witness :
    (createHistory ankaraStore true exampleNow datedBody).1.rows
        = ankaraStore.rows ++ [⟨2, ascii "Istanbul", 0x4035800000000000, ascii "Clear", exampleNow⟩]
    ∧ (consumeOne ankaraStore ⟨producerEvent, exampleNow, true⟩).1.rows
        = ankaraStore.rows ++ [⟨2, ascii "Ankara", 0x402E000000000000, ascii "Rain", exampleNow⟩] :=
  ⟨(write_paths_created_at ankaraStore exampleNow datedBody
      ⟨0, ascii "Istanbul", 0x4035800000000000, ascii "Clear", ⟨2020, 1, 1, 0, 0, 0, 0, 0⟩⟩).2.1
      (by decide),
   (write_paths_created_at ankaraStore exampleNow producerEvent
      ⟨0, ascii "Ankara", 0x402E000000000000, ascii "Rain",
        ⟨2024, 5, 1, 11, 59, 58, 500000000, 0⟩⟩).2.2 (by decide)⟩

/-! ## The consumer loop -/

end Weather
